import Mathlib

/-!
Verification of the schema-driven source generator in `parser_types.py`.

The Python module is shallowly embedded here: pydantic models become
structures/inductives, `field_validator`s become explicit construction
functions, string building is done over `String`, and code that can raise
(`KeyError` from the `JsonToPythonTypes` lookup, `ValueError` from the object
emitters) returns `Except String _`.  Python string slicing and truthiness are
modelled at the character-list level.
-/

/-- A Python runtime value, as far as the generator observes one: the
`default` field of a type descriptor may carry an int, a string or a bool.
Truthiness (`PyValue.truthy`) and `str(...)` rendering (`PyValue.pyStr`)
mirror Python semantics. -/
inductive PyValue where
  | int : Int → PyValue
  | str : String → PyValue
  | bool : Bool → PyValue
deriving DecidableEq, Repr

/-- Python truthiness of a value: `0`, `""` and `False` are falsy. -/
def PyValue.truthy : PyValue → Bool
  | .int n => n != 0
  | .str s => s != ""
  | .bool b => b

/-- Python `str(...)` of a value. -/
def PyValue.pyStr : PyValue → String
  | .int n => toString n
  | .str s => s
  | .bool b => if b then "True" else "False"

/-- Truthiness of an `Optional` Python value (`None` is falsy). -/
def optTruthy : Option PyValue → Bool
  | some v => v.truthy
  | none => false

/-- The `ApiObjectTypes` literal from `parser_types.py`: the discriminant tags
shared by objects and type descriptors. -/
inductive ApiObjectTypes where
  | properties
  | reference
  | any_of
  | unknown
  | integer
  | string
  | bool
  | array
  | float
deriving DecidableEq, Repr

/-- The string form of a tag, as it appears in the JSON schema and in Python
`KeyError` payloads. -/
def ApiObjectTypes.tagStr : ApiObjectTypes → String
  | .properties => "properties"
  | .reference => "reference"
  | .any_of => "any_of"
  | .unknown => "unknown"
  | .integer => "integer"
  | .string => "string"
  | .bool => "bool"
  | .array => "array"
  | .float => "float"

/-- The `JsonToPythonTypes` dict: primitive JSON kinds to Python type names.
`none` models a key that is absent (a lookup raises `KeyError`). -/
def JsonToPythonTypes : ApiObjectTypes → Option String
  | .integer => some "int"
  | .string => some "str"
  | .bool => some "bool"
  | .float => some "float"
  | _ => none

/-- The `ApiTypeInfo` pydantic model: a recursive type descriptor.  Fields in
constructor order: `type`, `enumeration`, `reference`, `default`, `array`,
`any_of`; all but `type` are `Optional` with default `None`. -/
inductive ApiTypeInfo where
  | mk : ApiObjectTypes → Option (List PyValue) → Option String → Option PyValue →
      Option ApiTypeInfo → Option (List ApiTypeInfo) → ApiTypeInfo

/-- Field accessor for `ApiTypeInfo.type`. -/
def ApiTypeInfo.type : ApiTypeInfo → ApiObjectTypes
  | .mk t _ _ _ _ _ => t

/-- Field accessor for `ApiTypeInfo.enumeration`. -/
def ApiTypeInfo.enumeration : ApiTypeInfo → Option (List PyValue)
  | .mk _ e _ _ _ _ => e

/-- Field accessor for `ApiTypeInfo.reference`. -/
def ApiTypeInfo.reference : ApiTypeInfo → Option String
  | .mk _ _ r _ _ _ => r

/-- Field accessor for `ApiTypeInfo.default`. -/
def ApiTypeInfo.default : ApiTypeInfo → Option PyValue
  | .mk _ _ _ d _ _ => d

/-- Field accessor for `ApiTypeInfo.array`. -/
def ApiTypeInfo.array : ApiTypeInfo → Option ApiTypeInfo
  | .mk _ _ _ _ a _ => a

/-- Field accessor for `ApiTypeInfo.any_of`. -/
def ApiTypeInfo.any_of : ApiTypeInfo → Option (List ApiTypeInfo)
  | .mk _ _ _ _ _ ao => ao

mutual

/-- `ApiTypeInfo.to_typehint` from `parser_types.py`.  The Python `elif`
chain is mirrored arm by arm: a `Union[...]` when the tag is `any_of` and the
`any_of` list is truthy (present and non-empty); a `List[...]` when the tag is
`array` and the nested descriptor is present; the empty string for `unknown`;
a quoted forward reference or an `objects.`-qualified direct reference for a
truthy `reference`; otherwise a `JsonToPythonTypes` lookup whose failure is
Python's `KeyError` (modelled as `.error` carrying the missing tag). -/
def ApiTypeInfo.to_typehint : ApiTypeInfo → Bool → Except String String
  | .mk .any_of _ _ _ _ (some (a :: rest)), ref_str => do
      let hints ← ApiTypeInfo.toTypehintList (a :: rest) ref_str
      return "Union[" ++ String.intercalate ", " hints ++ "]"
  | .mk .array _ _ _ (some inner) _, ref_str => do
      let h ← ApiTypeInfo.to_typehint inner ref_str
      return "List[" ++ h ++ "]"
  | .mk .unknown _ _ _ _ _, _ => .ok ""
  | .mk .reference _ (some r) _ _ _, ref_str =>
      if r = "" then
        match JsonToPythonTypes .reference with
        | some s => .ok s
        | none => .error (ApiObjectTypes.tagStr .reference)
      else
        .ok (if ref_str then "\"" ++ r ++ "\"" else "objects." ++ r)
  | .mk t _ _ _ _ _, _ =>
      match JsonToPythonTypes t with
      | some s => .ok s
      | none => .error t.tagStr

/-- The generator expression `el.to_typehint(ref_str=ref_str) for el in
self.any_of`, evaluated left to right with the first exception propagating. -/
def ApiTypeInfo.toTypehintList : List ApiTypeInfo → Bool → Except String (List String)
  | [], _ => .ok []
  | x :: xs, ref_str => do
      let h ← ApiTypeInfo.to_typehint x ref_str
      let hs ← ApiTypeInfo.toTypehintList xs ref_str
      return h :: hs

end

mutual

/-- A descriptor tree built only from recognized variants, in the sense of the
spec: a primitive with a mapped kind, an `array` with its nested descriptor
present and recognized, an `any_of` with a non-empty list of recognized
alternatives, a `reference` with a non-empty target name, or `unknown` (the
parameter `allowUnknown` selects whether the `unknown` variant is admitted).
The `enumeration` and `default` payloads are not constrained: `to_typehint`
never reads them. -/
def ApiTypeInfo.recognizedB (allowUnknown : Bool) : ApiTypeInfo → Bool
  | .mk t _ ref _ arr anyOf =>
      match t with
      | .integer => true
      | .string => true
      | .bool => true
      | .float => true
      | .unknown => allowUnknown
      | .reference =>
          match ref with
          | some r => r != ""
          | none => false
      | .array =>
          match arr with
          | some a => ApiTypeInfo.recognizedB allowUnknown a
          | none => false
      | .any_of =>
          match anyOf with
          | some (x :: xs) => ApiTypeInfo.recognizedListB allowUnknown (x :: xs)
          | _ => false
      | .properties => false

/-- All descriptors in the list are recognized. -/
def ApiTypeInfo.recognizedListB (allowUnknown : Bool) : List ApiTypeInfo → Bool
  | [] => true
  | x :: xs =>
      ApiTypeInfo.recognizedB allowUnknown x && ApiTypeInfo.recognizedListB allowUnknown xs

end

/-- The `PythonReservedNames` dict from `parser_types.py`, as the `dict.get`
lookup used by `validate_name`. -/
def PythonReservedNames.get (value : String) : Option String :=
  if value = "from" then some "from_"
  else if value = "format" then some "format_"
  else if value = "type" then some "type_"
  else none

/-- `ApiProperty.validate_name`: `formated_name = PythonReservedNames.get(value);
return formated_name or value` — the `or` falls back to `value` when the
lookup misses (or would return a falsy string). -/
def validate_name (value : String) : String :=
  match PythonReservedNames.get value with
  | some f => if f = "" then value else f
  | none => value

/-- The shared `validate_description` validator: every double quote becomes a
single quote, then every backslash is removed (Python `str.replace` on
one-character patterns, modelled character-wise). -/
def validate_description (value : String) : String :=
  String.mk ((value.data.map (fun c => if c = '\"' then '\x27' else c)).filter
    (fun c => c != '\\'))

/-- The `ApiProperty` pydantic model (`name` and `description` are stored
post-validation, as pydantic leaves them). -/
structure ApiProperty where
  name : String
  description : String
  required : Bool
  type_info : ApiTypeInfo

/-- Constructing an `ApiProperty` from raw schema data runs the two
`field_validator`s on `name` and `description`. -/
def mkApiProperty (name description : String) (required : Bool)
    (type_info : ApiTypeInfo) : ApiProperty :=
  ⟨validate_name name, validate_description description, required, type_info⟩

/-- `ApiProperty.to_typehint`.  `default_value = self.type_info.default or None`
collapses a falsy default to `None`; a truthy default of a `string`-typed
descriptor is re-wrapped in quotes; a non-required property renders
`name: Optional[T] = default`, a required one renders `name: T` with
` = default` appended only when the default is truthy. -/
def ApiProperty.to_typehint (p : ApiProperty) (ref_str : Bool) : Except String String := do
  let dv0 : Option PyValue :=
    match p.type_info.default with
    | some v => if v.truthy then some v else none
    | none => none
  let dv : Option PyValue :=
    if optTruthy dv0 && (p.type_info.type == ApiObjectTypes.string) then
      match dv0 with
      | some v => some (PyValue.str ("\"" ++ v.pyStr ++ "\""))
      | none => none
    else dv0
  if !p.required then
    let h ← p.type_info.to_typehint ref_str
    return p.name ++ ": Optional[" ++ h ++ "] = " ++
      (match dv with | some v => v.pyStr | none => "None")
  else
    let h ← p.type_info.to_typehint ref_str
    return p.name ++ ": " ++ h ++
      (if optTruthy dv then
        " = " ++ (match dv with | some v => v.pyStr | none => "None")
      else "")

/-- `ApiProperty.to_obj_var`. -/
def ApiProperty.to_obj_var (p : ApiProperty) : String :=
  "self." ++ p.name ++ " = " ++ p.name

/-- `ApiProperty.to_doc_line` (uses the default `ref_str=True` mode). -/
def ApiProperty.to_doc_line (p : ApiProperty) : Except String String := do
  let h ← p.type_info.to_typehint true
  return p.name ++ " (" ++ h ++ "): " ++ p.description

/-- Python `name.endswith('_')`, at the character level. -/
def pyEndsWithUnderscore (s : String) : Bool :=
  s.data.getLast? == some '_'

/-- Python `name[:-1]`: the string without its final character. -/
def strDropLastChar (s : String) : String :=
  String.mk s.data.dropLast

/-- One entry of the `json_params` list built by `ApiMethod.to_function`:
`"<name minus a trailing underscore>": <name>`. -/
def jsonParamEntry (el : ApiProperty) : String :=
  "\"" ++ (if pyEndsWithUnderscore el.name then strDropLastChar el.name else el.name)
    ++ "\": " ++ el.name

/-- The wire key used for an argument by the Method Emitter (the quoted part
of `jsonParamEntry`). -/
def wireKey (el : ApiProperty) : String :=
  if pyEndsWithUnderscore el.name then strDropLastChar el.name else el.name

/-- The action of `re.sub(r'(?<!^)(?=[A-Z])', '_', s)` on the tail of the
string: an underscore is inserted before every ASCII capital letter. -/
def snakeTail : List Char → List Char
  | [] => []
  | c :: rest => (if c.isUpper then ['_', c] else [c]) ++ snakeTail rest

/-- `re.sub(r'(?<!^)(?=[A-Z])', '_', s).lower()`: an underscore before every
interior capital letter (the first character is exempt via `(?<!^)`), then the
whole string lowercased. -/
def snakeCase (s : String) : String :=
  match s.data with
  | [] => ""
  | c :: rest => String.mk ((c :: snakeTail rest).map Char.toLower)

/-- The `ApiMethod` pydantic model. -/
structure ApiMethod where
  name : String
  description : String
  arguments : List ApiProperty
  maybe_multipart : Bool
  return_type : ApiTypeInfo

/-- Constructing an `ApiMethod` from raw schema data runs the `description`
validator (the method `name` has no validator). -/
def mkApiMethod (name description : String) (arguments : List ApiProperty)
    (maybe_multipart : Bool) (return_type : ApiTypeInfo) : ApiMethod :=
  ⟨name, validate_description description, arguments, maybe_multipart, return_type⟩

/-- The argument loop of `ApiMethod.to_function`: walks the arguments in
declared order, appending each rendered typehint (`ref_str=False`) to `args`
when `required` and to `args_opt` otherwise, and appending a `jsonParamEntry`
for every argument.  Returns `(args, args_opt, json_params)`; the first
exception raised by a typehint aborts the whole loop, as in Python. -/
def methodLoop : List ApiProperty → Except String (List String × List String × List String)
  | [] => .ok ([], [], [])
  | el :: rest => do
      let hint ← el.to_typehint false
      let (args, argsOpt, jsonParams) ← methodLoop rest
      if el.required then
        .ok (hint :: args, argsOpt, jsonParamEntry el :: jsonParams)
      else
        .ok (args, hint :: argsOpt, jsonParamEntry el :: jsonParams)

/-- `if args_opt: args.append('*'); args += args_opt` — the final rendered
parameter list of a method. -/
def combineArgs (args argsOpt : List String) : List String :=
  if argsOpt.isEmpty then args else args ++ ("*" :: argsOpt)

/-- Left-to-right effectful map over `Except`, the shape of every list
comprehension in the generator (first exception propagates). -/
def exceptMapList (f : α → Except String β) : List α → Except String (List β)
  | [] => .ok []
  | x :: xs => do
      let y ← f x
      let ys ← exceptMapList f xs
      return y :: ys

/-- `ApiMethod.to_function`: assembles the generated `async def` text from the
snake-cased name, the combined argument list, the payload dict, the resolved
return type (`ref_str=False`) and the per-argument doc lines. -/
def ApiMethod.to_function (m : ApiMethod) : Except String String := do
  let (args, argsOpt, jsonParams) ← methodLoop m.arguments
  let argsAll := combineArgs args argsOpt
  let snake_case_name := snakeCase m.name
  let return_typehint ← m.return_type.to_typehint false
  let doc_args ← exceptMapList ApiProperty.to_doc_line m.arguments
  return "async def " ++ snake_case_name ++ "(self" ++
    (if argsAll.isEmpty then "" else ", ") ++ String.intercalate ", " argsAll ++
    ") -> " ++ return_typehint ++ ":\n        \"\"\"" ++ m.description ++
    "\n\n        Args:\n            " ++ String.intercalate "\n            " doc_args ++
    "\n        \"\"\"\n        response_api: " ++ return_typehint ++
    " = await self.exec_request(\n            \"" ++ m.name ++
    "\",\n            json=\x7b" ++ String.intercalate ",\n                " jsonParams ++
    "\x7d,\n            return_type=" ++ return_typehint ++
    " # type: ignore\n\n        )\n        return response_api\n"

/-- The `ApiObject` pydantic model. -/
structure ApiObject where
  name : String
  description : String
  type : ApiObjectTypes
  documentation_link : String
  properties : Option (List ApiProperty)
  any_of : Option (List ApiTypeInfo)

/-- Constructing an `ApiObject` from raw schema data runs the `description`
validator. -/
def mkApiObject (name description : String) (type : ApiObjectTypes)
    (documentation_link : String) (properties : Option (List ApiProperty))
    (any_of : Option (List ApiTypeInfo)) : ApiObject :=
  ⟨name, validate_description description, type, documentation_link, properties, any_of⟩

/-- The property loop of `ApiObject.__to_code_properties`: partitions rendered
typehints into `typehints` (required with a non-truthy default) and
`typehints_optional`, and collects doc lines and `self.x = x` lines, in
declared order.  Its string results are never used by the emitted declaration,
but any exception it raises aborts the emission, so it is modelled in full. -/
def objectLoop :
    List ApiProperty → Except String (List String × List String × List String × List String)
  | [] => .ok ([], [], [], [])
  | el :: rest => do
      let hint ← el.to_typehint true
      let doc ← el.to_doc_line
      let (ths, thsOpt, docs, vars) ← objectLoop rest
      if el.required && !(optTruthy el.type_info.default) then
        .ok (hint :: ths, thsOpt, doc :: docs, el.to_obj_var :: vars)
      else
        .ok (ths, hint :: thsOpt, doc :: docs, el.to_obj_var :: vars)

/-- The combined `typehints + typehints_optional` list that
`__to_code_properties` computes (required-without-default first, then the
rest); the emitted text does not consume it. -/
def objectCombinedHints (ps : List ApiProperty) : Except String (List String) := do
  let (ths, thsOpt, _, _) ← objectLoop ps
  return if thsOpt.isEmpty then ths else ths ++ thsOpt

/-- One rendered property line of a record declaration: the typehint
(`ref_str=True`) followed by a docstring holding the doc line. -/
def renderPropLine (el : ApiProperty) : Except String String := do
  let h ← el.to_typehint true
  let d ← el.to_doc_line
  return h ++ "\n    \"\"\"" ++ d ++ "\"\"\""

/-- The record template of `__to_code_properties`, with the four format
holes filled in. -/
def objTemplate (name description documentation_link properties : String) : String :=
  "class " ++ name ++ "(BaseModel):\n    \"\"\"" ++ description ++ "\n\n    " ++
    documentation_link ++
    "\n    \"\"\"\n    model_config = ConfigDict(\n        populate_by_name=True,\n" ++
    "        alias_generator=lambda x: x[:-1] if x in reserved_python else x,\n    )\n    " ++
    properties ++ " \n    \n"

/-- `ApiObject.__to_code_properties`: raises `ValueError` when `properties` is
`None` or empty, runs the property loop (whose exceptions propagate), then
renders every property in original declared order into the record template. -/
def ApiObject.to_code_properties (o : ApiObject) : Except String String :=
  match o.properties with
  | none => .error "can not parse properties"
  | some [] => .error "can not parse properties"
  | some ps => do
      let _ ← objectLoop ps
      let lines ← exceptMapList renderPropLine ps
      return objTemplate o.name o.description o.documentation_link
        (String.intercalate "\n    " lines)

/-- `ApiObject.__to_code_any_of`: raises `ValueError` when `any_of` is `None`
or empty, otherwise emits a type alias over the `Union` of every alternative
resolved with the default `ref_str=True` mode, in original order. -/
def ApiObject.to_code_any_of (o : ApiObject) : Except String String :=
  match o.any_of with
  | none => .error "can not parse any_of"
  | some [] => .error "can not parse any_of"
  | some l => do
      let hints ← ApiTypeInfo.toTypehintList l true
      return o.name ++ " = Union[" ++ String.intercalate ", " hints ++ "]\n\"\"\"" ++
        o.description ++ "\"\"\""

/-- `ApiObject.__to_code_unknown`: a type alias to `Any`. -/
def ApiObject.to_code_unknown (o : ApiObject) : String :=
  o.name ++ " = Any\n\"\"\"" ++ o.description ++ "\"\"\""

/-- `ApiObject.to_code`: dispatch on the discriminant tag.  An unrecognized
tag prints a diagnostic (collected here as the second component) and returns
the empty string without raising. -/
def ApiObject.to_code (o : ApiObject) : Except String (String × List String) :=
  match o.type with
  | .properties => (o.to_code_properties).map (fun s => (s, []))
  | .any_of => (o.to_code_any_of).map (fun s => (s, []))
  | .unknown => .ok (o.to_code_unknown, [])
  | _ => .ok ("", [o.name ++ " can not be parsed!"])

/-- The `ApiScheme` pydantic model. -/
structure ApiScheme where
  objects : List ApiObject
  methods : List ApiMethod

/-- `ApiScheme.to_code_objects`: the objects' emitted texts joined by a blank
line, together with all diagnostics printed along the way. -/
def ApiScheme.to_code_objects (s : ApiScheme) : Except String (String × List String) := do
  let pairs ← exceptMapList ApiObject.to_code s.objects
  return (String.intercalate "\n\n" (pairs.map Prod.fst), (pairs.map Prod.snd).flatten)

/-- `ApiScheme.to_code_methods`: every method's emitted text joined and spliced
into the `ApiWrapper` class template. -/
def ApiScheme.to_code_methods (s : ApiScheme) : Except String String := do
  let ms ← exceptMapList ApiMethod.to_function s.methods
  return "class ApiWrapper:\n    def __init__(self, token: str, *, api_url: str = " ++
    "\"https://api.telegram.org/\"):\n        self.token = token\n" ++
    "        self.api_url = api_url\n        self.client = AsyncClient(\n" ++
    "            base_url=api_url + \"bot\" + token + \x27/\x27\n        )\n\n" ++
    "    async def exec_request(\n            self,\n            method: str,\n" ++
    "            json: Dict,\n            return_type: Type[T]\n    ) -> T:\n" ++
    "        result = await self.client.post(\n            method,\n" ++
    "            json=json\n        )\n        mdl = ApiResponse[return_type]" ++
    "# type: ignore\n        response = mdl.model_validate(result.json())\n" ++
    "        return response.result\n\n    " ++
    String.intercalate "\n\n    " ms ++ "\n"

/-- Modelled from the spec (§4.2, §8): the word-boundary conversion stated in
the spec's own words — keep the first character, emit a separator before each
remaining capital letter, then lowercase everything.  Used only to compare
against the code's `snakeCase`. -/
def snakeSpec (s : String) : String :=
  String.mk ((s.data.head?.toList ++
    (s.data.tail.flatMap (fun c => if c.isUpper then ['_', c] else [c]))).map Char.toLower)

/-! ### Helper lemmas -/

theorem data_mk_eq (l : List Char) : (String.mk l).data = l := rfl

theorem mk_data_eq (s : String) : String.mk s.data = s := by
  apply String.ext
  rfl

theorem append_ne_empty_left (a b : String) (ha : a ≠ "") : a ++ b ≠ "" := by
  intro h
  apply ha
  have hd := congrArg String.data h
  rw [String.data_append] at hd
  rcases List.append_eq_nil.mp hd with ⟨h1, _⟩
  apply String.ext
  exact h1

theorem isUpper_toLower (c : Char) : (c.toLower).isUpper = false := by
  have key : ∀ x : Char, x.val.toNat < 65 ∨ 90 < x.val.toNat → x.isUpper = false := by
    intro x hx
    simp only [Char.isUpper, Bool.and_eq_false_imp, decide_eq_true_eq, decide_eq_false_iff_not]
    intro h65
    have h65' : (65 : UInt32).toNat ≤ x.val.toNat := h65
    have h65n : (65 : UInt32).toNat = 65 := by decide
    intro hle
    have hle' : x.val.toNat ≤ (90 : UInt32).toNat := hle
    have h90n : (90 : UInt32).toNat = 90 := by decide
    omega
  unfold Char.toLower
  by_cases h : c.toNat ≥ 65 ∧ c.toNat ≤ 90
  · simp only [h, and_self, if_true, if_pos]
    apply key
    have hvalid : Nat.isValidChar (c.toNat + 32) := Or.inl (by omega)
    have hval : (Char.ofNat (c.toNat + 32)).val.toNat = c.toNat + 32 := by
      simp [Char.ofNat, hvalid, Char.ofNatAux]
      rfl
    rw [hval]
    right
    omega
  · simp only [if_neg h]
    apply key
    simp only [Char.toNat] at h
    omega

theorem snakeTail_eq_flatMap (cs : List Char) :
    snakeTail cs = cs.flatMap (fun c => if c.isUpper then ['_', c] else [c]) := by
  induction cs with
  | nil => rfl
  | cons c rest ih => simp [snakeTail, List.flatMap_cons, ih]

theorem snakeCase_eq_snakeSpec (s : String) : snakeCase s = snakeSpec s := by
  unfold snakeCase snakeSpec
  cases hd : s.data with
  | nil => simp [hd]
  | cons c rest =>
      simp [hd, List.head?, List.tail, snakeTail_eq_flatMap]

theorem snakeCase_no_upper (s : String) : ∀ c ∈ (snakeCase s).data, c.isUpper = false := by
  unfold snakeCase
  cases hd : s.data with
  | nil => intro c hc; simp [data_mk_eq] at hc
  | cons c rest =>
      intro x hx
      rw [data_mk_eq] at hx
      rcases List.mem_map.mp hx with ⟨y, _, rfl⟩
      exact isUpper_toLower y

mutual

theorem to_typehint_total (t : ApiTypeInfo) (u b : Bool)
    (h : ApiTypeInfo.recognizedB u t = true) :
    ∃ s, ApiTypeInfo.to_typehint t b = .ok s ∧ (s = "" ↔ t.type = .unknown) := by
  cases t with
  | mk tag e r d arr anyOf =>
    cases tag with
    | integer =>
        exact ⟨"int", rfl, iff_of_false (by decide) (by simp [ApiTypeInfo.type])⟩
    | string =>
        exact ⟨"str", rfl, iff_of_false (by decide) (by simp [ApiTypeInfo.type])⟩
    | bool =>
        exact ⟨"bool", rfl, iff_of_false (by decide) (by simp [ApiTypeInfo.type])⟩
    | float =>
        exact ⟨"float", rfl, iff_of_false (by decide) (by simp [ApiTypeInfo.type])⟩
    | unknown =>
        exact ⟨"", rfl, iff_of_true rfl (by simp [ApiTypeInfo.type])⟩
    | properties =>
        simp [ApiTypeInfo.recognizedB] at h
    | reference =>
        cases r with
        | none => simp [ApiTypeInfo.recognizedB] at h
        | some rv =>
            simp only [ApiTypeInfo.recognizedB, bne_iff_ne, ne_eq, decide_eq_true_eq] at h
            have hrv : rv ≠ "" := by
              intro hc; rw [hc] at h; simp at h
            refine ⟨if b then "\"" ++ rv ++ "\"" else "objects." ++ rv, ?_, ?_⟩
            · simp [ApiTypeInfo.to_typehint, hrv]
            · refine iff_of_false ?_ (by simp [ApiTypeInfo.type])
              cases b with
              | true => simpa using append_ne_empty_left "\"" (rv ++ "\"") (by decide)
              | false => simpa using append_ne_empty_left "objects." rv (by decide)
    | array =>
        cases arr with
        | none => simp [ApiTypeInfo.recognizedB] at h
        | some inner =>
            simp only [ApiTypeInfo.recognizedB] at h
            obtain ⟨s, hs, _⟩ := to_typehint_total inner u b h
            refine ⟨"List[" ++ s ++ "]", ?_, ?_⟩
            · simp [ApiTypeInfo.to_typehint, hs]
            · exact iff_of_false (append_ne_empty_left "List[" (s ++ "]") (by decide))
                (by simp [ApiTypeInfo.type])
    | any_of =>
        cases anyOf with
        | none => simp [ApiTypeInfo.recognizedB] at h
        | some l =>
            cases l with
            | nil => simp [ApiTypeInfo.recognizedB] at h
            | cons x xs =>
                simp only [ApiTypeInfo.recognizedB] at h
                obtain ⟨ss, hss⟩ := toTypehintList_total (x :: xs) u b h
                refine ⟨"Union[" ++ String.intercalate ", " ss ++ "]", ?_, ?_⟩
                · simp [ApiTypeInfo.to_typehint, hss]
                · exact iff_of_false
                    (append_ne_empty_left "Union[" (String.intercalate ", " ss ++ "]")
                      (by decide))
                    (by simp [ApiTypeInfo.type])

theorem toTypehintList_total (l : List ApiTypeInfo) (u b : Bool)
    (h : ApiTypeInfo.recognizedListB u l = true) :
    ∃ ss, ApiTypeInfo.toTypehintList l b = .ok ss := by
  cases l with
  | nil => exact ⟨[], rfl⟩
  | cons x xs =>
      simp only [ApiTypeInfo.recognizedListB, Bool.and_eq_true] at h
      obtain ⟨s, hs, _⟩ := to_typehint_total x u b h.1
      obtain ⟨ss, hss⟩ := toTypehintList_total xs u b h.2
      refine ⟨s :: ss, ?_⟩
      simp only [ApiTypeInfo.toTypehintList, hs, hss]
      rfl

end

theorem toTypehintList_eq_mapList (l : List ApiTypeInfo) (b : Bool) :
    ApiTypeInfo.toTypehintList l b =
      exceptMapList (fun t => ApiTypeInfo.to_typehint t b) l := by
  induction l with
  | nil => rfl
  | cons x xs ih => simp only [ApiTypeInfo.toTypehintList, exceptMapList, ih]

theorem exceptMapList_ok_of_forall (f : α → Except String β) (l : List α)
    (h : ∀ a ∈ l, ∃ b, f a = .ok b) :
    ∃ bs, exceptMapList f l = .ok bs ∧ List.Forall₂ (fun a b => f a = .ok b) l bs := by
  induction l with
  | nil => exact ⟨[], rfl, List.Forall₂.nil⟩
  | cons x xs ih =>
      obtain ⟨y, hy⟩ := h x (List.mem_cons_self x xs)
      obtain ⟨ys, hys, hall⟩ := ih (fun a ha => h a (List.mem_cons_of_mem x ha))
      refine ⟨y :: ys, ?_, List.Forall₂.cons hy hall⟩
      simp only [exceptMapList, hy, hys]
      rfl

theorem except_bind_ok_eq (a : α) (f : α → Except String β) :
    (Except.ok a >>= f) = f a := rfl

theorem except_bind_error_eq (e : String) (f : α → Except String β) :
    ((Except.error e : Except String α) >>= f) = Except.error e := rfl

theorem methodLoop_partitions (l : List ApiProperty) :
    ∀ args argsOpt jps, methodLoop l = .ok (args, argsOpt, jps) →
      exceptMapList (fun el => ApiProperty.to_typehint el false)
        (l.filter (fun el => el.required)) = .ok args ∧
      exceptMapList (fun el => ApiProperty.to_typehint el false)
        (l.filter (fun el => !el.required)) = .ok argsOpt ∧
      jps = l.map jsonParamEntry := by
  induction l with
  | nil =>
      intro args argsOpt jps h
      simp only [methodLoop, Except.ok.injEq, Prod.mk.injEq] at h
      obtain ⟨ha, hb, hc⟩ := h
      subst ha; subst hb; subst hc
      exact ⟨rfl, rfl, rfl⟩
  | cons el rest ih =>
      intro args argsOpt jps h
      simp only [methodLoop] at h
      cases hhint : ApiProperty.to_typehint el false with
      | error e =>
          rw [hhint, except_bind_error_eq] at h
          exact absurd h (by simp)
      | ok hint =>
          rw [hhint, except_bind_ok_eq] at h
          cases hrest : methodLoop rest with
          | error e =>
              rw [hrest, except_bind_error_eq] at h
              exact absurd h (by simp)
          | ok triple =>
              obtain ⟨argsR, argsOptR, jpsR⟩ := triple
              rw [hrest, except_bind_ok_eq] at h
              obtain ⟨ih1, ih2, ih3⟩ := ih argsR argsOptR jpsR hrest
              cases hreq : el.required with
              | true =>
                  simp only [hreq, if_true, Except.ok.injEq, Prod.mk.injEq] at h
                  obtain ⟨ha, hb, hc⟩ := h
                  subst ha; subst hb; subst hc
                  refine ⟨?_, ?_, ?_⟩
                  · simp only [List.filter_cons, hreq, if_true, exceptMapList, hhint,
                      except_bind_ok_eq, ih1]
                    rfl
                  · simpa only [List.filter_cons, hreq, Bool.not_true, if_false] using ih2
                  · simp only [List.map_cons, ih3]
              | false =>
                  simp only [hreq, Bool.false_eq_true, if_false, Except.ok.injEq,
                    Prod.mk.injEq] at h
                  obtain ⟨ha, hb, hc⟩ := h
                  subst ha; subst hb; subst hc
                  refine ⟨?_, ?_, ?_⟩
                  · simpa only [List.filter_cons, hreq, if_false] using ih1
                  · simp only [List.filter_cons, hreq, Bool.not_false, if_true, exceptMapList,
                      hhint, except_bind_ok_eq, ih2]
                    rfl
                  · simp only [List.map_cons, ih3]

theorem pyEndsWithUnderscore_append (t : String) :
    pyEndsWithUnderscore (t ++ "_") = true := by
  unfold pyEndsWithUnderscore
  rw [String.data_append]
  rw [show ("_" : String).data = ['_'] from rfl]
  simp [List.getLast?_concat]

theorem strDropLastChar_append (t : String) : strDropLastChar (t ++ "_") = t := by
  unfold strDropLastChar
  rw [String.data_append]
  rw [show ("_" : String).data = ['_'] from rfl]
  rw [List.dropLast_concat]

theorem append_underscore_ne (t : String) : t ++ "_" ≠ t := by
  intro h
  have hlen := congrArg (fun s => s.data.length) h
  simp [String.data_append] at hlen

theorem reserved_get_append_underscore (t : String) :
    PythonReservedNames.get (t ++ "_") = none := by
  have key : ∀ (w : String), w.data.getLast? ≠ some '_' → t ++ "_" ≠ w := by
    intro w hw heq
    apply hw
    rw [← heq, String.data_append]
    rw [show ("_" : String).data = ['_'] from rfl]
    simp [List.getLast?_concat]
  unfold PythonReservedNames.get
  rw [if_neg (key "from" (by decide)), if_neg (key "format" (by decide)),
    if_neg (key "type" (by decide))]

/-- A falsy-or-absent Python default (`None`, `0`, `""`, `False`). -/
def optFalsy : Option PyValue → Bool
  | none => true
  | some v => !v.truthy

/-! ### Concrete demo inputs -/

/-- A bare `integer` descriptor. -/
def tiInt : ApiTypeInfo := .mk .integer none none none none none

/-- A bare `string` descriptor. -/
def tiStr : ApiTypeInfo := .mk .string none none none none none

/-- A `reference` descriptor targeting `Foo`. -/
def tiRefFoo : ApiTypeInfo := .mk .reference none (some "Foo") none none none

/-- The `unknown` descriptor. -/
def tiUnknown : ApiTypeInfo := .mk .unknown none none none none none

/-- The spec's scenario-B method: `sendMessage` with required `chat_id` and
`text` and optional `reply_to_message_id`. -/
def demoSendMessage : ApiMethod :=
  mkApiMethod "sendMessage" "Send a message"
    [ mkApiProperty "chat_id" "chat id" true tiInt,
      mkApiProperty "text" "the text" true tiStr,
      mkApiProperty "reply_to_message_id" "reply target" false tiInt ]
    false tiInt

/-- A record object whose first declared property is optional and whose second
is required. -/
def demoObjC1 : ApiObject :=
  mkApiObject "DemoC1" "record demo" .properties "https://example.org/democ1"
    (some [ mkApiProperty "b" "optional first" false tiInt,
            mkApiProperty "a" "required second" true tiInt ]) none

/-- The spec's scenario-D object: a tagged union over `integer` and `string`. -/
def demoUnionIS : ApiObject :=
  mkApiObject "IntOrStr" "int or str" .any_of "https://example.org/intorstr" none
    (some [tiInt, tiStr])

/-- A tagged union whose single alternative is a reference. -/
def demoUnionRef : ApiObject :=
  mkApiObject "Alias" "alias demo" .any_of "https://example.org/alias" none
    (some [tiRefFoo])

/-- An object carrying a discriminant tag the emitter does not recognize. -/
def demoSkipped : ApiObject :=
  mkApiObject "Skipped" "skipped demo" .integer "https://example.org/skip" none none

/-- A schema holding one well-formed union object, one unrecognized-kind
object, and one method. -/
def demoScheme : ApiScheme :=
  ⟨[demoUnionIS, demoSkipped], [demoSendMessage]⟩

/-- C1 (amended): the Method Emitter renders all required arguments before all
optional ones, preserving declared order within each partition (the partition
tests only the `required` flag), with a lone `*` separating the groups when
any optional argument exists; the Object Emitter, by contrast, renders record
properties in their original declared order (its required-first partition is
computed but unused in the emitted text). -/
theorem claim_C1_partition_order :
    (∀ (l : List ApiProperty) (args argsOpt jps : List String),
       methodLoop l = .ok (args, argsOpt, jps) →
       exceptMapList (fun el => ApiProperty.to_typehint el false)
         (l.filter (fun el => el.required)) = .ok args ∧
       exceptMapList (fun el => ApiProperty.to_typehint el false)
         (l.filter (fun el => !el.required)) = .ok argsOpt ∧
       combineArgs args argsOpt =
         args ++ (if argsOpt.isEmpty then [] else "*" :: argsOpt)) ∧
    (∀ (o : ApiObject) (ps : List ApiProperty) (lines : List String)
       (p0 : ApiProperty) (ps' : List ApiProperty),
       o.properties = some ps → ps = p0 :: ps' →
       (∃ r, objectLoop ps = .ok r) →
       exceptMapList renderPropLine ps = .ok lines →
       o.to_code_properties = .ok (objTemplate o.name o.description o.documentation_link
         (String.intercalate "\n    " lines))) := by
  constructor
  · intro l args argsOpt jps h
    obtain ⟨h1, h2, _⟩ := methodLoop_partitions l args argsOpt jps h
    refine ⟨h1, h2, ?_⟩
    unfold combineArgs
    cases hopt : argsOpt.isEmpty with
    | true => simp
    | false => simp
  · intro o ps lines p0 ps' ho hcons ⟨r, hr⟩ hlines
    subst hcons
    simp only [ApiObject.to_code_properties, ho]
    rw [hr, except_bind_ok_eq, hlines, except_bind_ok_eq]
    rfl

/-- C1 witness: the amended theorem applied to the scenario-B method arguments
and to the `demoObjC1` record. -/
theorem claim_C1_partition_order_witness :
    (exceptMapList (fun el => ApiProperty.to_typehint el false)
       (demoSendMessage.arguments.filter (fun el => el.required)) =
         .ok ["chat_id: int", "text: str"] ∧
     exceptMapList (fun el => ApiProperty.to_typehint el false)
       (demoSendMessage.arguments.filter (fun el => !el.required)) =
         .ok ["reply_to_message_id: Optional[int] = None"] ∧
     combineArgs ["chat_id: int", "text: str"] ["reply_to_message_id: Optional[int] = None"] =
       ["chat_id: int", "text: str"] ++
         (if (["reply_to_message_id: Optional[int] = None"] : List String).isEmpty then []
          else "*" :: ["reply_to_message_id: Optional[int] = None"])) ∧
    demoObjC1.to_code_properties = .ok (objTemplate demoObjC1.name demoObjC1.description
      demoObjC1.documentation_link (String.intercalate "\n    "
        ["b: Optional[int] = None\n    \"\"\"b (int): optional first\"\"\"",
         "a: int\n    \"\"\"a (int): required second\"\"\""])) := by
  constructor
  · exact claim_C1_partition_order.1 demoSendMessage.arguments
      ["chat_id: int", "text: str"] ["reply_to_message_id: Optional[int] = None"]
      ["\"chat_id\": chat_id", "\"text\": text",
       "\"reply_to_message_id\": reply_to_message_id"] (by rfl)
  · exact claim_C1_partition_order.2 demoObjC1
      [ mkApiProperty "b" "optional first" false tiInt,
        mkApiProperty "a" "required second" true tiInt ]
      ["b: Optional[int] = None\n    \"\"\"b (int): optional first\"\"\"",
       "a: int\n    \"\"\"a (int): required second\"\"\""]
      (mkApiProperty "b" "optional first" false tiInt)
      [mkApiProperty "a" "required second" true tiInt]
      (by rfl) (by rfl) ⟨(["a: int"], ["b: Optional[int] = None"],
        ["b (int): optional first", "a (int): required second"],
        ["self.b = b", "self.a = a"]), by rfl⟩ (by rfl)

set_option maxRecDepth 10000 in
/-- C1 counterexample: for `demoObjC1` (optional property declared first,
required second) the emitted record declaration keeps the optional property
first, so required properties do not render before optional ones in the
Object Emitter output, contrary to the claim. -/
theorem claim_C1_counterexample :
    demoObjC1.to_code_properties = .ok (objTemplate "DemoC1" "record demo"
      "https://example.org/democ1"
      ("b: Optional[int] = None\n    \"\"\"b (int): optional first\"\"\"\n    " ++
       "a: int\n    \"\"\"a (int): required second\"\"\"")) ∧
    objectCombinedHints
      [ mkApiProperty "b" "optional first" false tiInt,
        mkApiProperty "a" "required second" true tiInt ] =
      .ok ["a: int", "b: Optional[int] = None"] ∧
    objTemplate "DemoC1" "record demo" "https://example.org/democ1"
        ("b: Optional[int] = None\n    \"\"\"b (int): optional first\"\"\"\n    " ++
         "a: int\n    \"\"\"a (int): required second\"\"\"") ≠
      objTemplate "DemoC1" "record demo" "https://example.org/democ1"
        ("a: int\n    \"\"\"a (int): required second\"\"\"\n    " ++
         "b: Optional[int] = None\n    \"\"\"b (int): optional first\"\"\"") := by
  exact ⟨by rfl, by rfl, by decide⟩

/-- C2 (amended): for every descriptor tree built only from recognized
variants, `to_typehint` terminates and returns `.ok` in both reference modes;
the returned string is empty exactly when the root variant is `unknown` (the
code renders the `unknown` variant as the empty string, not as a universal
type), hence non-empty for every other recognized root. -/
theorem claim_C2_resolve_total :
    ∀ (t : ApiTypeInfo) (b : Bool), ApiTypeInfo.recognizedB true t = true →
      ∃ s, ApiTypeInfo.to_typehint t b = .ok s ∧ (s = "" ↔ t.type = .unknown) := by
  intro t b h
  exact to_typehint_total t true b h

/-- C2 witness: the amended theorem applied to the recognized tree
`Union[int, List["Foo"]]` in both modes. -/
theorem claim_C2_resolve_total_witness :
    (∃ s, ApiTypeInfo.to_typehint
        (.mk .any_of none none none none (some [tiInt,
          .mk .array none none none (some tiRefFoo) none])) true = .ok s ∧
      (s = "" ↔ (ApiTypeInfo.mk .any_of none none none none (some [tiInt,
          .mk .array none none none (some tiRefFoo) none])).type = .unknown)) ∧
    (∃ s, ApiTypeInfo.to_typehint
        (.mk .any_of none none none none (some [tiInt,
          .mk .array none none none (some tiRefFoo) none])) false = .ok s ∧
      (s = "" ↔ (ApiTypeInfo.mk .any_of none none none none (some [tiInt,
          .mk .array none none none (some tiRefFoo) none])).type = .unknown)) :=
  ⟨claim_C2_resolve_total _ true (by rfl), claim_C2_resolve_total _ false (by rfl)⟩

/-- C2 counterexample: the `unknown` variant is a recognized variant, yet
`to_typehint` returns the empty string for it in both reference modes, so
resolution does not return a non-empty string on all recognized trees. -/
theorem claim_C2_counterexample :
    ApiTypeInfo.recognizedB true tiUnknown = true ∧
    ApiTypeInfo.to_typehint tiUnknown true = .ok "" ∧
    ApiTypeInfo.to_typehint tiUnknown false = .ok "" :=
  ⟨rfl, rfl, rfl⟩

/-- C3 (amended): for every tagged-union object the emitter produces a type
alias over the `Union` of each alternative resolved in FORWARD-reference mode
(`ref_str=True`, the `to_typehint` default), in original order — not
direct-reference mode as claimed; scenario D (alternatives integer, string)
yields `Union[int, str]` in exactly that order. -/
theorem claim_C3_union_alias :
    (∀ (o : ApiObject) (l : List ApiTypeInfo) (hints : List String)
       (x : ApiTypeInfo) (xs : List ApiTypeInfo),
       o.any_of = some l → l = x :: xs →
       ApiTypeInfo.toTypehintList l true = .ok hints →
       o.to_code_any_of = .ok (o.name ++ " = Union[" ++
         String.intercalate ", " hints ++ "]\n\"\"\"" ++ o.description ++ "\"\"\"")) ∧
    (∀ (l : List ApiTypeInfo) (b : Bool),
       ApiTypeInfo.toTypehintList l b =
         exceptMapList (fun t => ApiTypeInfo.to_typehint t b) l) ∧
    demoUnionIS.to_code = .ok ("IntOrStr = Union[int, str]\n\"\"\"int or str\"\"\"", []) := by
  refine ⟨?_, toTypehintList_eq_mapList, by rfl⟩
  intro o l hints x xs ho hcons hhints
  subst hcons
  simp only [ApiObject.to_code_any_of, ho]
  rw [hhints, except_bind_ok_eq]
  rfl

/-- C3 witness: the amended theorem applied to the scenario-D union object. -/
theorem claim_C3_union_alias_witness :
    demoUnionIS.to_code_any_of = .ok ("IntOrStr" ++ " = Union[" ++
      String.intercalate ", " ["int", "str"] ++ "]\n\"\"\"" ++ "int or str" ++ "\"\"\"") :=
  claim_C3_union_alias.1 demoUnionIS [tiInt, tiStr] ["int", "str"] tiInt [tiStr]
    (by rfl) (by rfl) (by rfl)

/-- C3 counterexample: a union whose alternative is a reference to `Foo`. The
direct-reference-mode resolution of that alternative is `objects.Foo`, but the
emitted alias uses the forward-mode `"Foo"`, so the alias is not built from
direct-reference-mode resolutions. -/
theorem claim_C3_counterexample :
    ApiTypeInfo.to_typehint tiRefFoo false = .ok "objects.Foo" ∧
    demoUnionRef.to_code =
      .ok ("Alias = Union[\"Foo\"]\n\"\"\"alias demo\"\"\"", []) ∧
    ("Alias = Union[\"Foo\"]\n\"\"\"alias demo\"\"\"" : String) ≠
      "Alias = Union[objects.Foo]\n\"\"\"alias demo\"\"\"" :=
  ⟨rfl, rfl, by decide⟩

/-- C4: for every property whose raw name is in the reserved-word table, the
stored (sanitized) identifier is the raw name with a trailing underscore and
differs from the raw name, while the payload entry built by the Method Emitter
uses the original raw name as the wire key and the sanitized identifier as the
value expression. -/
theorem claim_C4_wire_key_roundtrip :
    ∀ (raw desc : String) (req : Bool) (ti : ApiTypeInfo),
      (PythonReservedNames.get raw).isSome →
      (mkApiProperty raw desc req ti).name = raw ++ "_" ∧
      raw ++ "_" ≠ raw ∧
      jsonParamEntry (mkApiProperty raw desc req ti) =
        "\"" ++ raw ++ "\": " ++ (raw ++ "_") := by
  intro raw desc req ti h
  unfold PythonReservedNames.get at h
  split_ifs at h with h1 h2 h3
  · subst h1
    exact ⟨rfl, append_underscore_ne "from", rfl⟩
  · subst h2
    exact ⟨rfl, append_underscore_ne "format", rfl⟩
  · subst h3
    exact ⟨rfl, append_underscore_ne "type", rfl⟩
  · simp at h

/-- C4 witness: the theorem applied to the reserved raw name `type` (the
spec's scenario C). -/
theorem claim_C4_wire_key_roundtrip_witness :
    (mkApiProperty "type" "d" true tiInt).name = "type" ++ "_" ∧
    "type" ++ "_" ≠ "type" ∧
    jsonParamEntry (mkApiProperty "type" "d" true tiInt) =
      "\"" ++ "type" ++ "\": " ++ ("type" ++ "_") :=
  claim_C4_wire_key_roundtrip "type" "d" true tiInt (by decide)

/-- C5: type resolution raises rather than returning a string when an `array`
variant lacks its nested descriptor, when an `any_of` variant lacks its
alternatives (absent or empty), and when the tag reaching the primitive
mapping is not one of its four keys (shown for the `properties` tag, the one
tag that always falls through to the lookup): in each case the `KeyError` of
the failed `JsonToPythonTypes` lookup aborts resolution in both modes. -/
theorem claim_C5_malformed_fails :
    (∀ (b : Bool) (e : Option (List PyValue)) (r : Option String) (d : Option PyValue)
       (ao : Option (List ApiTypeInfo)),
       ApiTypeInfo.to_typehint (.mk .array e r d none ao) b = .error "array") ∧
    (∀ (b : Bool) (e : Option (List PyValue)) (r : Option String) (d : Option PyValue)
       (arr : Option ApiTypeInfo),
       ApiTypeInfo.to_typehint (.mk .any_of e r d arr none) b = .error "any_of" ∧
       ApiTypeInfo.to_typehint (.mk .any_of e r d arr (some [])) b = .error "any_of") ∧
    (∀ (b : Bool) (e : Option (List PyValue)) (r : Option String) (d : Option PyValue)
       (arr : Option ApiTypeInfo) (ao : Option (List ApiTypeInfo)),
       ApiTypeInfo.to_typehint (.mk .properties e r d arr ao) b = .error "properties") := by
  refine ⟨?_, ?_, ?_⟩
  · intro b e r d ao
    rfl
  · intro b e r d arr
    exact ⟨rfl, rfl⟩
  · intro b e r d arr ao
    rfl

/-- C6: an object whose discriminant tag is none of `properties`, `any_of`,
`unknown` emits the empty string plus a diagnostic naming it, without an
exception; and whenever every object (resp. method) of a schema emits
successfully, the aggregated blocks succeed, with every entry's own output
present at its position of the joined list. -/
theorem claim_C6_unrecognized_skip :
    (∀ o : ApiObject, o.type ≠ .properties → o.type ≠ .any_of → o.type ≠ .unknown →
       o.to_code = .ok ("", [o.name ++ " can not be parsed!"])) ∧
    (∀ s : ApiScheme, (∀ o ∈ s.objects, ∃ r, o.to_code = .ok r) →
       ∃ pairs, exceptMapList ApiObject.to_code s.objects = .ok pairs ∧
         List.Forall₂ (fun o pr => ApiObject.to_code o = .ok pr) s.objects pairs ∧
         s.to_code_objects = .ok (String.intercalate "\n\n" (pairs.map Prod.fst),
           (pairs.map Prod.snd).flatten)) ∧
    (∀ s : ApiScheme, (∀ m ∈ s.methods, ∃ r, m.to_function = .ok r) →
       ∃ out, s.to_code_methods = .ok out) := by
  refine ⟨?_, ?_, ?_⟩
  · intro o h1 h2 h3
    unfold ApiObject.to_code
    cases ht : o.type with
    | properties => exact absurd ht h1
    | any_of => exact absurd ht h2
    | unknown => exact absurd ht h3
    | reference => rfl
    | integer => rfl
    | string => rfl
    | bool => rfl
    | array => rfl
    | float => rfl
  · intro s h
    obtain ⟨pairs, hp, hall⟩ := exceptMapList_ok_of_forall ApiObject.to_code s.objects h
    refine ⟨pairs, hp, hall, ?_⟩
    unfold ApiScheme.to_code_objects
    rw [hp, except_bind_ok_eq]
    rfl
  · intro s h
    obtain ⟨ms, hm, _⟩ := exceptMapList_ok_of_forall ApiMethod.to_function s.methods h
    unfold ApiScheme.to_code_methods
    rw [hm, except_bind_ok_eq]
    exact ⟨_, rfl⟩

/-- C6 witness: in `demoScheme` the `Skipped` object (tag `integer`) is
skipped with a diagnostic while the other object and the method still emit. -/
theorem claim_C6_unrecognized_skip_witness :
    demoSkipped.to_code = .ok ("", ["Skipped can not be parsed!"]) ∧
    (∃ pairs, exceptMapList ApiObject.to_code demoScheme.objects = .ok pairs ∧
      List.Forall₂ (fun o pr => ApiObject.to_code o = .ok pr) demoScheme.objects pairs ∧
      demoScheme.to_code_objects = .ok (String.intercalate "\n\n" (pairs.map Prod.fst),
        (pairs.map Prod.snd).flatten)) ∧
    (∃ out, demoScheme.to_code_methods = .ok out) := by
  refine ⟨?_, ?_, ?_⟩
  · exact claim_C6_unrecognized_skip.1 demoSkipped (by decide) (by decide) (by decide)
  · refine claim_C6_unrecognized_skip.2.1 demoScheme ?_
    intro o ho
    simp only [demoScheme, List.mem_cons, List.mem_singleton] at ho
    rcases ho with rfl | rfl | hc
    · exact ⟨("IntOrStr = Union[int, str]\n\"\"\"int or str\"\"\"", []), by rfl⟩
    · exact ⟨("", ["Skipped can not be parsed!"]), by rfl⟩
    · cases hc
  · refine claim_C6_unrecognized_skip.2.2 demoScheme ?_
    intro m hm
    simp only [demoScheme, List.mem_singleton] at hm
    subst hm
    exact ⟨_, by rfl⟩

set_option maxRecDepth 10000 in
/-- C7: the callable identifier is produced by inserting an underscore before
every interior capital letter and lowercasing the whole string — `snakeCase`
(the code's regex) coincides with `snakeSpec` (the rule as the spec words it)
on every input, and its output never contains an upper-case letter; on the
scenario-B method `sendMessage(chat_id, text, *, reply_to_message_id)` the
emitted callable is `send_message`, the parameter list keeps required
arguments first with a `*` separator, the payload mapping holds exactly the
three original keys, and the full emitted text is reproduced. -/
theorem claim_C7_snake_case_scenario :
    (∀ s : String, snakeCase s = snakeSpec s) ∧
    (∀ s : String, ∀ c ∈ (snakeCase s).data, c.isUpper = false) ∧
    snakeCase "sendMessage" = "send_message" ∧
    methodLoop demoSendMessage.arguments =
      .ok (["chat_id: int", "text: str"], ["reply_to_message_id: Optional[int] = None"],
        ["\"chat_id\": chat_id", "\"text\": text",
         "\"reply_to_message_id\": reply_to_message_id"]) ∧
    combineArgs ["chat_id: int", "text: str"] ["reply_to_message_id: Optional[int] = None"] =
      ["chat_id: int", "text: str", "*", "reply_to_message_id: Optional[int] = None"] ∧
    demoSendMessage.arguments.map wireKey = ["chat_id", "text", "reply_to_message_id"] ∧
    demoSendMessage.to_function = .ok
      ("async def send_message(self, chat_id: int, text: str, *, " ++
       "reply_to_message_id: Optional[int] = None) -> int:\n        \"\"\"" ++
       "Send a message\n\n        Args:\n            chat_id (int): chat id\n" ++
       "            text (str): the text\n            reply_to_message_id (int): " ++
       "reply target\n        \"\"\"\n        response_api: int = await " ++
       "self.exec_request(\n            \"sendMessage\",\n            " ++
       "json=\x7b\"chat_id\": chat_id,\n                \"text\": text,\n" ++
       "                \"reply_to_message_id\": reply_to_message_id\x7d,\n" ++
       "            return_type=int # type: ignore\n\n        )\n" ++
       "        return response_api\n") :=
  ⟨snakeCase_eq_snakeSpec, snakeCase_no_upper, by rfl, by rfl, by rfl, by rfl, by rfl⟩

/-- C7 witness: the no-upper-case conjunct applied at the concrete character
`'s'` of `snakeCase "sendMessage"`. -/
theorem claim_C7_snake_case_scenario_witness : ('s' : Char).isUpper = false :=
  claim_C7_snake_case_scenario.2.1 "sendMessage" 's' (by decide)

/-- C8: `validate_name` rewrites a raw identifier iff it is a key of the
reserved-word table, in which case the result is the raw name suffixed with an
underscore (hence distinct); non-reserved names pass through unchanged, so
sanitization is idempotent on them — in particular on the already-sanitized
`from_`. -/
theorem claim_C8_sanitize_exactly_reserved :
    (∀ s : String,
      (validate_name s ≠ s ↔ (PythonReservedNames.get s).isSome) ∧
      ((PythonReservedNames.get s).isSome → validate_name s = s ++ "_") ∧
      (PythonReservedNames.get s = none → validate_name s = s) ∧
      (PythonReservedNames.get s = none →
        validate_name (validate_name s) = validate_name s)) ∧
    validate_name "from_" = "from_" := by
  constructor
  · intro s
    by_cases h1 : s = "from"
    · subst h1; exact ⟨by decide, by decide, by decide, by decide⟩
    · by_cases h2 : s = "format"
      · subst h2; exact ⟨by decide, by decide, by decide, by decide⟩
      · by_cases h3 : s = "type"
        · subst h3; exact ⟨by decide, by decide, by decide, by decide⟩
        · have hget : PythonReservedNames.get s = none := by
            unfold PythonReservedNames.get
            rw [if_neg h1, if_neg h2, if_neg h3]
          have hv : validate_name s = s := by
            unfold validate_name
            rw [hget]
          refine ⟨iff_of_false (fun hc => hc hv) (by simp [hget]),
            fun hc => absurd hc (by simp [hget]), fun _ => hv, fun _ => ?_⟩
          simp only [hv]
  · rfl

/-- C8 witness: the theorem applied at the reserved name `type` and the
non-reserved name `from_`. -/
theorem claim_C8_sanitize_exactly_reserved_witness :
    validate_name "type" = "type" ++ "_" ∧
    validate_name (validate_name "from_") = validate_name "from_" :=
  ⟨(claim_C8_sanitize_exactly_reserved.1 "type").2.1 (by decide),
   (claim_C8_sanitize_exactly_reserved.1 "from_").2.2.2 (by decide)⟩

/-- C9: a property whose descriptor default is absent or falsy (`None`, `0`,
`""`, `False`) renders exactly as if it had no default: a non-required
property renders `name: Optional[T] = None` and a required property renders
`name: T` with no default clause, in either reference mode. -/
theorem claim_C9_falsy_default :
    ∀ (p : ApiProperty) (b : Bool) (h : String),
      optFalsy p.type_info.default = true →
      p.type_info.to_typehint b = .ok h →
      (p.required = false →
        p.to_typehint b = .ok (p.name ++ ": Optional[" ++ h ++ "] = None")) ∧
      (p.required = true → p.to_typehint b = .ok (p.name ++ ": " ++ h)) := by
  intro p b h hf hok
  have hdv0 : (match p.type_info.default with
      | some v => if v.truthy then some v else none
      | none => none) = (none : Option PyValue) := by
    cases hd : p.type_info.default with
    | none => rfl
    | some v =>
        rw [hd] at hf
        simp only [optFalsy, Bool.not_eq_true'] at hf
        simp [hf]
  constructor
  · intro hreq
    unfold ApiProperty.to_typehint
    rw [hdv0, hreq, hok]
    simp only [optTruthy, Bool.false_and, Bool.false_eq_true, if_false, Bool.not_false,
      if_true, except_bind_ok_eq]
    rw [String.append_assoc]
    rfl
  · intro hreq
    unfold ApiProperty.to_typehint
    rw [hdv0, hreq, hok]
    simp [optTruthy]

/-- C9 witness: the theorem applied to a non-required integer property with
explicit default `0` and to a required string property with explicit default
`""`. -/
theorem claim_C9_falsy_default_witness :
    (ApiProperty.to_typehint
      ⟨"x", "d", false, .mk .integer none none (some (.int 0)) none none⟩ true =
        .ok ("x" ++ ": Optional[" ++ "int" ++ "] = None")) ∧
    (ApiProperty.to_typehint
      ⟨"y", "d", true, .mk .string none none (some (.str "")) none none⟩ true =
        .ok ("y" ++ ": " ++ "str")) :=
  ⟨(claim_C9_falsy_default
      ⟨"x", "d", false, .mk .integer none none (some (.int 0)) none none⟩ true "int"
      (by decide) (by rfl)).1 rfl,
   (claim_C9_falsy_default
      ⟨"y", "d", true, .mk .string none none (some (.str "")) none none⟩ true "str"
      (by decide) (by rfl)).2 rfl⟩

/-- C10: a raw argument name with a trailing underscore is never a key of the
reserved table, so sanitization leaves it unchanged; the Method Emitter's wire
key nevertheless strips the trailing underscore, so the wire key differs from
the original wire name — stripping is applied by suffix shape, not by whether
sanitization fired. -/
theorem claim_C10_strip_by_shape :
    ∀ (t desc : String) (req : Bool) (ti : ApiTypeInfo),
      PythonReservedNames.get (t ++ "_") = none ∧
      (mkApiProperty (t ++ "_") desc req ti).name = t ++ "_" ∧
      wireKey (mkApiProperty (t ++ "_") desc req ti) = t ∧
      t ≠ t ++ "_" ∧
      jsonParamEntry (mkApiProperty (t ++ "_") desc req ti) =
        "\"" ++ t ++ "\": " ++ (t ++ "_") := by
  intro t desc req ti
  have hget := reserved_get_append_underscore t
  have hname : (mkApiProperty (t ++ "_") desc req ti).name = t ++ "_" := by
    show validate_name (t ++ "_") = t ++ "_"
    unfold validate_name
    rw [hget]
  refine ⟨hget, hname, ?_, fun hc => append_underscore_ne t hc.symm, ?_⟩
  · unfold wireKey
    rw [hname, pyEndsWithUnderscore_append, if_pos rfl, strDropLastChar_append]
  · unfold jsonParamEntry
    rw [hname, pyEndsWithUnderscore_append, if_pos rfl, strDropLastChar_append]
